import Mathlib

/-!
Verification of the palette-constrained quantization and layout-planning
core of the WaveshareEpaperPhotoframe repository, as a shallow embedding.

Sources embedded:
* `src/dither.py`     — `load_act_palette`, geometric part of `process_image`
* `src/vitrail_o3.py` — `load_palette`, `apply_palette`, `overlay_edges`,
                        the palette-size gate of `stained_glass_effect`

Bytes are modelled as natural numbers (the loaders never inspect the
0..255 bound), pixel buffers as row-major lists of rows, numpy int16
arithmetic as exact integers wrapped with an explicit mod-2^16 signed
reduction at every point at which numpy stores an intermediate into an
int16 array.
-/

/-- An RGB (or BGR — the channel order is never inspected) color triple.
Fields mirror the three consecutive palette-file bytes of one entry. -/
structure Color where
  r : ℕ
  g : ℕ
  b : ℕ
  deriving DecidableEq, Repr

/-- Groups a flat byte list into consecutive triples, dropping a final
incomplete group; this is `np.frombuffer(data).reshape((n, 3))` of
`vitrail_o3.load_palette`, whose length-multiple-of-3 guard guarantees
that nothing is dropped. -/
def toTriples : List ℕ → List Color
  | r :: g :: b :: rest => ⟨r, g, b⟩ :: toTriples rest
  | _ => []

/-- Flattens a color list back to its byte list (entry i contributes
bytes 3i, 3i+1, 3i+2). Used to state that parsed entries are exactly the
consecutive byte triples of the input. -/
def colorBytes : List Color → List ℕ
  | [] => []
  | c :: cs => c.r :: c.g :: c.b :: colorBytes cs

/-- The bytes that `vitrail_o3.load_palette` actually parses: a 772-byte
input is truncated to its first 768 bytes, anything else is kept whole. -/
def effBytes (data : List ℕ) : List ℕ :=
  if data.length = 772 then data.take 768 else data

/-- `vitrail_o3.load_palette`: truncate a 772-byte file to 768 bytes,
fail (`ValueError`, the spec's InvalidPaletteFormat) unless the remaining
length is a multiple of 3, else parse consecutive triples. -/
def loadPalette (data : List ℕ) : Option (List Color) :=
  if (effBytes data).length % 3 = 0 then some (toTriples (effBytes data)) else none

/-- `dither.load_act_palette`: fail (`ValueError`) when the file holds
fewer than 768 bytes, otherwise keep exactly the first 768 bytes as a
flat palette list. -/
def loadActPalette (data : List ℕ) : Option (List ℕ) :=
  if data.length < 768 then none else some (data.take 768)

/-- Signed 16-bit wraparound: the value a numpy `int16` cell holds after
an arithmetic result `x` is stored into it. -/
def int16wrap (x : ℤ) : ℤ := (x + 32768) % 65536 - 32768

/-- The per-pixel "squared distance" that `vitrail_o3.apply_palette`
computes: channel differences and their squares are taken in an `int16`
array (`astype(np.int16)`, then `diff ** 2`), so each squared channel
difference wraps modulo 2^16 before `np.sum` accumulates the three
channels in a platform (64-bit) integer. -/
def dist16 (p q : Color) : ℤ :=
  int16wrap (int16wrap ((p.r : ℤ) - (q.r : ℤ)) ^ 2) +
    int16wrap (int16wrap ((p.g : ℤ) - (q.g : ℤ)) ^ 2) +
    int16wrap (int16wrap ((p.b : ℤ) - (q.b : ℤ)) ^ 2)

/-- Left-to-right scan keeping the first index attaining the minimum so
far: the semantics of `np.argmin` along a row of the distance matrix
(strictly smaller values replace the current best, ties keep the earlier
index). `i` is the index of the head of the remaining list, `bi`/`bv` the
best index and value seen so far. -/
def argminFrom (f : Color → ℤ) : List Color → ℕ → ℕ → ℤ → ℕ
  | [], _, bi, _ => bi
  | q :: qs, i, bi, bv =>
      if f q < bv then argminFrom f qs (i + 1) i (f q)
      else argminFrom f qs (i + 1) bi bv

/-- `np.argmin(distances, axis=1)` for one pixel: index of the first
palette entry minimizing `dist16`. (numpy raises on an empty palette; the
value at `[]` is irrelevant and fixed to 0.) -/
def nearestIdx (p : Color) : List Color → ℕ
  | [] => 0
  | q :: qs => argminFrom (dist16 p) qs 1 0 (dist16 p q)

/-- `vitrail_o3.apply_palette`: replace every pixel of the row-major
buffer by the palette entry `np.argmin` selects for it
(`palette[indices]`). The `getD` default is never reached for a
non-empty palette. -/
def applyPalette (pal : List Color) (img : List (List Color)) : List (List Color) :=
  img.map (fun row => row.map (fun p => pal.getD (nearestIdx p pal) ⟨0, 0, 0⟩))

/-- A rectangle of the layout plan: position of the crop window inside
the proportionally resized image, and its size. -/
structure Rect where
  x : ℕ
  y : ℕ
  w : ℕ
  h : ℕ
  deriving DecidableEq, Repr

/-- One output of `dither.process_image`: the name suffix it is saved
under (`none` when the file is written as `{base}.bmp` with no suffix),
the rectangle it covers, whether it is the forced non-proportional
resize, and whether that forced resize starts from the original image
(short branch) rather than the proportionally resized one. -/
structure PlanEntry where
  label : Option String
  rect : Rect
  forcedResize : Bool
  fromOriginal : Bool
  deriving DecidableEq, Repr

/-- The height of the proportional resize in `dither.process_image`:
`int(orig_height * (target_width / orig_width))` — Python `int()`
truncates, which on these non-negative values is the floor, i.e. ℕ
division. -/
def newHeight (origW origH tW : ℕ) : ℕ := origH * tW / origW

/-- Python `round(y_max / 3)` as computed by `dither.process_image`.
Since `y / 3` has fractional part 0, 1/3 or 2/3, an exact half never
occurs and round-half-to-even equals `floor(y/3 + 1/2) = (2y + 3) / 6`. -/
def roundThird (y : ℕ) : ℕ := (2 * y + 3) / 6

/-- Python `round(2 * y_max / 3)`; same reasoning:
`floor(2y/3 + 1/2) = (4y + 3) / 6`. -/
def roundTwoThirds (y : ℕ) : ℕ := (4 * y + 3) / 6

/-- The four candidate vertical crop offsets of `dither.process_image`:
`[0, round(y_max/3), round(2*y_max/3), y_max]`, before de-duplication. -/
def fourOffsets (yMax : ℕ) : List ℕ :=
  [0, roundThird yMax, roundTwoThirds yMax, yMax]

/-- `sorted(set([...]))` of the four candidate offsets: the distinct
offsets in ascending order. -/
def cropOffsets (yMax : ℕ) : List ℕ :=
  List.insertionSort (· ≤ ·) (fourOffsets yMax).dedup

/-- The labels `["top", "upper", "lower", "bottom"]` used as file-name
parts for the crop windows. -/
def labelStrings : List String := ["top", "upper", "lower", "bottom"]

/-- `suffixes[i] if i < len(suffixes) else str(i)` from the crop loop. -/
def labelFor (i : ℕ) : String := labelStrings.getD i (toString i)

/-- The crop windows produced by the `for i, y in enumerate(...)` loop of
`dither.process_image`: crop box `(0, y, target_width, y + target_height)`
(an 800×480 window at vertical offset y), labeled positionally — except
that a plan with a single crop window is saved as `{base}.bmp` with no
label at all. -/
def cropEntries (tW tH : ℕ) (positions : List ℕ) : List PlanEntry :=
  (positions.zip (List.range positions.length)).map (fun p =>
    { label := if positions.length = 1 then none else some (labelFor p.2),
      rect := ⟨0, p.1, tW, tH⟩, forcedResize := false, fromOriginal := false })

/-- The extra forced-resize output of the tall branch: the proportionally
resized image squeezed to `target_width × target_height`, saved as
`{base}_resized.bmp`. -/
def resizedEntry (tW tH : ℕ) : PlanEntry :=
  ⟨some "resized", ⟨0, 0, tW, tH⟩, true, false⟩

/-- The geometric plan of `dither.process_image`: if the proportional
height reaches the target height, the de-duplicated sorted crop windows
followed by the forced-resize entry; otherwise a single forced resize of
the original image, saved as `{base}.bmp`. -/
def processPlan (origW origH tW tH : ℕ) : List PlanEntry :=
  if tH ≤ newHeight origW origH tW then
    cropEntries tW tH (cropOffsets (newHeight origW origH tW - tH)) ++ [resizedEntry tW tH]
  else
    [⟨none, ⟨0, 0, tW, tH⟩, true, true⟩]

/-- The crop (non-forced) part of a plan, in order. -/
def cropPart (plan : List PlanEntry) : List PlanEntry :=
  plan.filter (fun e => !e.forcedResize)

/-- The vertical offsets of a plan's crop windows, in order. -/
def planCropOffsets (plan : List PlanEntry) : List ℕ :=
  (cropPart plan).map (fun e => e.rect.y)

/-- The palette-size gate of `vitrail_o3.stained_glass_effect`: fewer
than 8 entries aborts the operation (the spec's PaletteTooSmall), more
than 8 keeps only the first 8 (`palette = palette[:8]`; `take 8` is also
the identity at exactly 8). -/
def stainedGlassPalette (pal : List Color) : Option (List Color) :=
  if pal.length < 8 then none else some (pal.take 8)

/-- The literal black pixel that `vitrail_o3.overlay_edges` writes:
`result[edges != 0] = [0, 0, 0]`. -/
def black : Color := ⟨0, 0, 0⟩

/-- Per-pixel behavior of `vitrail_o3.overlay_edges`: a pixel under a
non-zero mask value becomes literal black, any other pixel is kept. -/
def overlayPix (c : Color) (e : ℕ) : Color := if e = 0 then c else black

/-- `vitrail_o3.overlay_edges` on a row-major buffer and an equally
shaped mask (numpy broadcasting requires equal shapes; `zipWith`
truncation is unreachable on the shapes the caller produces). -/
def overlayEdges (img : List (List Color)) (edges : List (List ℕ)) : List (List Color) :=
  List.zipWith (fun row erow => List.zipWith overlayPix row erow) img edges

theorem toTriples_length : ∀ l : List ℕ, (toTriples l).length = l.length / 3
  | [] => by simp [toTriples]
  | [a] => by simp [toTriples]
  | [a, b] => by simp [toTriples]
  | r :: g :: b :: rest => by
      simp only [toTriples, List.length_cons, toTriples_length rest]
      omega

theorem colorBytes_toTriples : ∀ l : List ℕ, l.length % 3 = 0 → colorBytes (toTriples l) = l
  | [] => by simp [toTriples, colorBytes]
  | [a] => by intro h; simp at h
  | [a, b] => by intro h; simp at h
  | r :: g :: b :: rest => by
      intro hlen
      simp only [List.length_cons] at hlen
      simp only [toTriples, colorBytes]
      rw [colorBytes_toTriples rest (by omega)]

/-- Claim C2 (amended): `vitrail_o3.load_palette` fails exactly when the
input length is neither 772 nor a multiple of 3; on success it yields
length/3 entries (after the 772→768 truncation) whose flattening is
exactly the parsed bytes, so entry i is bytes [3i, 3i+3). By contrast
`dither.load_act_palette` fails exactly when the length is below 768 and
otherwise keeps the first 768 bytes. -/
theorem C2_palette_loading (data : List ℕ) :
    (loadPalette data = none ↔ (data.length ≠ 772 ∧ data.length % 3 ≠ 0)) ∧
    (∀ q, loadPalette data = some q →
        q.length = (effBytes data).length / 3 ∧ colorBytes q = effBytes data) ∧
    (loadActPalette data = none ↔ data.length < 768) ∧
    (∀ q, loadActPalette data = some q → q = data.take 768) := by
  have heff : (effBytes data).length % 3 = 0 ↔ (data.length = 772 ∨ data.length % 3 = 0) := by
    unfold effBytes
    split_ifs with h772
    · simp [List.length_take, h772]
    · simp [h772]
  refine ⟨?_, ?_, ?_, ?_⟩
  · unfold loadPalette
    split_ifs with h
    · simp only [heff] at h
      constructor
      · intro hcontra; cases hcontra
      · intro hc; exact absurd h (by tauto)
    · simp only [heff] at h
      push_neg at h
      simp [h]
  · intro q hq
    unfold loadPalette at hq
    split_ifs at hq with h
    · cases hq
      exact ⟨toTriples_length _, colorBytes_toTriples _ h⟩
  · unfold loadActPalette
    split_ifs with h <;> simp [h]
  · intro q hq
    unfold loadActPalette at hq
    split_ifs at hq with h
    · cases hq; rfl

set_option maxRecDepth 10000 in
/-- Witness for C2: a concrete 768-byte input is accepted by both
loaders; its 256 parsed entries flatten back to the input bytes, and the
flat loader returns the input's first 768 bytes. -/
theorem C2_palette_loading_witness :
    colorBytes (toTriples (List.replicate 768 (0 : ℕ))) = effBytes (List.replicate 768 (0 : ℕ)) ∧
    (List.replicate 768 (0 : ℕ)).take 768 = (List.replicate 768 (0 : ℕ)).take 768 := by
  have h := C2_palette_loading (List.replicate 768 (0 : ℕ))
  refine ⟨(h.2.1 (toTriples (effBytes (List.replicate 768 (0 : ℕ)))) ?_).2, h.2.2.2 _ ?_⟩
  · rfl
  · rfl

set_option maxRecDepth 10000 in
/-- Counterexample for C2 as stated: a 770-byte input is neither 768 nor
772 bytes long and is not a multiple of 3, so the claim requires the load
to fail; `dither.load_act_palette` nevertheless accepts it (returning its
first 768 bytes). -/
theorem C2_palette_loading_counterexample :
    (loadActPalette (List.replicate 770 (0 : ℕ))).isSome = true ∧ (770 : ℕ) % 3 = 2 := by
  constructor
  · rfl
  · rfl

/-- Claim C1 (code bug): for pixel (0,0,0) and palette
[(0,0,0), (255,255,255)] the code returns index 1, not the index 0 of the
entry at true minimal squared Euclidean distance: the int16 square of the
channel difference 255 wraps to −511, so the "distance" to white is
−1533, below the true-distance-0 entry at index 0. The claim's tie-break
instance (palette [(0,0,0), (0,0,0)] → index 0) does hold. -/
theorem C1_nearest_overflow :
    nearestIdx ⟨0, 0, 0⟩ [⟨0, 0, 0⟩, ⟨255, 255, 255⟩] = 1 ∧
    dist16 ⟨0, 0, 0⟩ ⟨255, 255, 255⟩ = -1533 ∧
    dist16 ⟨0, 0, 0⟩ ⟨0, 0, 0⟩ = 0 ∧
    nearestIdx ⟨7, 7, 7⟩ [⟨0, 0, 0⟩, ⟨0, 0, 0⟩] = 0 := by
  decide

/-- Claim C5 (code bug): a 1×1 image whose only pixel (0,0,0) is itself
the first palette entry is not a fixed point of `apply_palette` — the
wrapped int16 distance makes the quantizer rewrite it to (255,255,255). -/
theorem C5_idempotence_overflow :
    ([[(⟨0, 0, 0⟩ : Color)]].all
      (fun row => row.all (fun c => decide (c ∈ ([⟨0, 0, 0⟩, ⟨255, 255, 255⟩] : List Color)))) = true) ∧
    applyPalette [⟨0, 0, 0⟩, ⟨255, 255, 255⟩] [[⟨0, 0, 0⟩]] = [[⟨255, 255, 255⟩]] ∧
    decide (applyPalette [⟨0, 0, 0⟩, ⟨255, 255, 255⟩] [[⟨0, 0, 0⟩]] = [[⟨0, 0, 0⟩]]) = false := by
  decide

theorem processPlan_tall {origW origH tW tH : ℕ} (h : tH ≤ newHeight origW origH tW) :
    processPlan origW origH tW tH =
      cropEntries tW tH (cropOffsets (newHeight origW origH tW - tH)) ++ [resizedEntry tW tH] := by
  unfold processPlan
  rw [if_pos h]

theorem cropEntries_forced (tW tH : ℕ) (ps : List ℕ) :
    ∀ e ∈ cropEntries tW tH ps, e.forcedResize = false := by
  intro e he
  unfold cropEntries at he
  obtain ⟨p, hp, rfl⟩ := List.mem_map.mp he
  rfl

theorem cropPart_processPlan_tall {origW origH tW tH : ℕ}
    (h : tH ≤ newHeight origW origH tW) :
    cropPart (processPlan origW origH tW tH) =
      cropEntries tW tH (cropOffsets (newHeight origW origH tW - tH)) := by
  rw [processPlan_tall h]
  unfold cropPart
  rw [List.filter_append]
  have h1 : List.filter (fun e => !e.forcedResize) [resizedEntry tW tH] = [] := rfl
  rw [h1, List.append_nil]
  apply List.filter_eq_self.mpr
  intro e he
  rw [cropEntries_forced _ _ _ e he]
  rfl

theorem cropEntries_offsets (tW tH : ℕ) (ps : List ℕ) :
    (cropEntries tW tH ps).map (fun e => e.rect.y) = ps := by
  unfold cropEntries
  rw [List.map_map]
  have hc : ((fun e : PlanEntry => e.rect.y) ∘
      (fun p : ℕ × ℕ =>
        ({ label := if ps.length = 1 then none else some (labelFor p.2),
           rect := ⟨0, p.1, tW, tH⟩, forcedResize := false, fromOriginal := false } : PlanEntry))) =
      Prod.fst := by
    funext p
    rfl
  rw [hc, List.map_fst_zip]
  rw [List.length_range]

theorem cropEntries_length (tW tH : ℕ) (ps : List ℕ) :
    (cropEntries tW tH ps).length = ps.length := by
  unfold cropEntries
  rw [List.length_map, List.length_zip, List.length_range, Nat.min_self]

theorem cropOffsets_sorted (yMax : ℕ) : List.Sorted (· < ·) (cropOffsets yMax) := by
  have hs : List.Sorted (· ≤ ·) (cropOffsets yMax) := List.sorted_insertionSort _ _
  have hn : (cropOffsets yMax).Nodup :=
    ((List.perm_insertionSort (· ≤ ·) (fourOffsets yMax).dedup).nodup_iff).mpr
      (List.nodup_dedup _)
  exact hs.lt_of_le hn

theorem mem_cropOffsets {yMax z : ℕ} : z ∈ cropOffsets yMax ↔ z ∈ fourOffsets yMax := by
  unfold cropOffsets
  rw [List.mem_insertionSort, List.mem_dedup]

theorem cropOffsets_le {yMax z : ℕ} (hz : z ∈ cropOffsets yMax) : z ≤ yMax := by
  rw [mem_cropOffsets] at hz
  simp only [fourOffsets, roundThird, roundTwoThirds, List.mem_cons,
    List.not_mem_nil, or_false] at hz
  rcases hz with h | h | h | h <;> omega

theorem cropOffsets_length_le (yMax : ℕ) : (cropOffsets yMax).length ≤ 4 := by
  unfold cropOffsets
  rw [List.length_insertionSort]
  exact (List.dedup_sublist (fourOffsets yMax)).length_le

theorem cropOffsets_length_pos (yMax : ℕ) : 1 ≤ (cropOffsets yMax).length := by
  have h0 : (0 : ℕ) ∈ cropOffsets yMax := mem_cropOffsets.mpr (by simp [fourOffsets])
  exact List.length_pos.mpr (List.ne_nil_of_mem h0)

theorem cropEntries_labels (tW tH : ℕ) (ps : List ℕ) :
    (cropEntries tW tH ps).map PlanEntry.label =
      if ps.length = 1 then [none]
      else (List.range ps.length).map (fun i => some (labelFor i)) := by
  unfold cropEntries
  rw [List.map_map]
  split_ifs with h1
  · obtain ⟨y, rfl⟩ := List.length_eq_one.mp h1
    rfl
  · have hev : (PlanEntry.label ∘
        (fun p : ℕ × ℕ =>
          ({ label := some (labelFor p.2),
             rect := ⟨0, p.1, tW, tH⟩, forcedResize := false, fromOriginal := false } : PlanEntry))) =
        ((fun i => some (labelFor i)) ∘ Prod.snd) := by
      funext p
      rfl
    rw [hev, ← List.map_map, List.map_snd_zip]
    rw [List.length_range]

theorem labelFor_range_eq (k : ℕ) (hk : k ≤ 4) :
    (List.range k).map (fun i => some (labelFor i)) = (labelStrings.take k).map some := by
  interval_cases k <;> rfl

/-- Claim C4 (amended): the proportional resize height computed by
`dither.process_image` is the floor (Python `int()` truncation) of
sourceH · targetW / sourceW, not round-to-nearest. -/
theorem C4_height_is_floor (sW sH tW tH : ℕ) (hsW : 0 < sW) (hsH : 0 < sH)
    (htW : 0 < tW) (htH : 0 < tH) :
    newHeight sW sH tW = ⌊((sH * tW : ℕ) : ℚ) / ((sW : ℕ) : ℚ)⌋₊ := by
  rw [newHeight]
  exact (Nat.floor_div_eq_div (sH * tW) sW).symm

/-- Witness for C4: at source 1600×1200 and target width 800 the height
is 600, the floor of the exact ratio. -/
theorem C4_height_is_floor_witness :
    newHeight 1600 1200 800 = ⌊((1200 * 800 : ℕ) : ℚ) / ((1600 : ℕ) : ℚ)⌋₊ ∧
    newHeight 1600 1200 800 = 600 :=
  ⟨C4_height_is_floor 1600 1200 800 480 (by decide) (by decide) (by decide) (by decide),
   by decide⟩

/-- Counterexample for C4 as stated: for source 3×8 and target width 1
the exact ratio is 8/3 ≈ 2.67, whose nearest integer is 3, but the code's
truncation yields 2 — strictly below the claimed round-to-nearest value. -/
theorem C4_height_not_round :
    newHeight 3 8 1 = 2 ∧
    round (((8 * 1 : ℕ) : ℚ) / ((3 : ℕ) : ℚ)) = 3 ∧
    (newHeight 3 8 1 : ℤ) < round (((8 * 1 : ℕ) : ℚ) / ((3 : ℕ) : ℚ)) := by
  have h3 : round (((8 * 1 : ℕ) : ℚ) / ((3 : ℕ) : ℚ)) = 3 := by
    rw [round_eq, Int.floor_eq_iff]
    norm_num
  refine ⟨rfl, h3, ?_⟩
  rw [h3]
  decide

/-- Claim C3: in the tall branch (proportional height ≥ target height),
the plan's crop windows sit exactly at the de-duplicated, ascending
offsets {0, round(yMax/3), round(2·yMax/3), yMax}, exactly one
forced-resize entry is appended after the crop set, and every rectangle
of the plan is exactly targetW × targetH. -/
theorem C3_tall_layout (sW sH tW tH : ℕ) (hsW : 0 < sW) (hsH : 0 < sH)
    (htW : 0 < tW) (htH : 0 < tH) (htall : tH ≤ newHeight sW sH tW) :
    planCropOffsets (processPlan sW sH tW tH) = cropOffsets (newHeight sW sH tW - tH) ∧
    List.Sorted (· < ·) (planCropOffsets (processPlan sW sH tW tH)) ∧
    (∀ z, z ∈ planCropOffsets (processPlan sW sH tW tH) ↔
      z ∈ fourOffsets (newHeight sW sH tW - tH)) ∧
    ((processPlan sW sH tW tH).filter (fun e => e.forcedResize)).length = 1 ∧
    (processPlan sW sH tW tH).getLast? = some (resizedEntry tW tH) ∧
    (∀ e ∈ processPlan sW sH tW tH, e.rect.w = tW ∧ e.rect.h = tH) := by
  have hoff : planCropOffsets (processPlan sW sH tW tH) =
      cropOffsets (newHeight sW sH tW - tH) := by
    unfold planCropOffsets
    rw [cropPart_processPlan_tall htall, cropEntries_offsets]
  refine ⟨hoff, ?_, ?_, ?_, ?_, ?_⟩
  · rw [hoff]
    exact cropOffsets_sorted _
  · intro z
    rw [hoff]
    exact mem_cropOffsets
  · rw [processPlan_tall htall, List.filter_append]
    have h1 : List.filter (fun e => e.forcedResize) [resizedEntry tW tH] =
        [resizedEntry tW tH] := rfl
    have h2 : List.filter (fun e => e.forcedResize)
        (cropEntries tW tH (cropOffsets (newHeight sW sH tW - tH))) = [] := by
      apply List.filter_eq_nil_iff.mpr
      intro e he
      rw [cropEntries_forced _ _ _ e he]
      decide
    rw [h1, h2]
    rfl
  · rw [processPlan_tall htall]
    exact List.getLast?_concat _
  · intro e he
    rw [processPlan_tall htall] at he
    rcases List.mem_append.mp he with hc | hr
    · unfold cropEntries at hc
      obtain ⟨p, hp, rfl⟩ := List.mem_map.mp hc
      exact ⟨rfl, rfl⟩
    · rw [List.mem_singleton.mp hr]
      exact ⟨rfl, rfl⟩

/-- Witness for C3: source 1600×1200, target 800×480 — proportional
height 600, offsets [0, 40, 80, 120], five rectangles in total. -/
theorem C3_tall_layout_witness :
    (processPlan 1600 1200 800 480).length = 5 ∧
    newHeight 1600 1200 800 = 600 ∧
    cropOffsets (newHeight 1600 1200 800 - 480) = [0, 40, 80, 120] ∧
    (planCropOffsets (processPlan 1600 1200 800 480) =
        cropOffsets (newHeight 1600 1200 800 - 480) ∧
      List.Sorted (· < ·) (planCropOffsets (processPlan 1600 1200 800 480)) ∧
      (∀ z, z ∈ planCropOffsets (processPlan 1600 1200 800 480) ↔
        z ∈ fourOffsets (newHeight 1600 1200 800 - 480)) ∧
      ((processPlan 1600 1200 800 480).filter (fun e => e.forcedResize)).length = 1 ∧
      (processPlan 1600 1200 800 480).getLast? = some (resizedEntry 800 480) ∧
      (∀ e ∈ processPlan 1600 1200 800 480, e.rect.w = 800 ∧ e.rect.h = 480)) :=
  ⟨by decide, by decide, by decide,
   C3_tall_layout 1600 1200 800 480 (by decide) (by decide) (by decide) (by decide) (by decide)⟩

/-- Claim C6: in the short branch (proportional height < target height)
the plan is a single forced resize of the original image to
targetW × targetH, with no crop entries and no name suffix. -/
theorem C6_short_layout (sW sH tW tH : ℕ) (hsW : 0 < sW) (hsH : 0 < sH)
    (htW : 0 < tW) (htH : 0 < tH) (hshort : newHeight sW sH tW < tH) :
    processPlan sW sH tW tH = [⟨none, ⟨0, 0, tW, tH⟩, true, true⟩] := by
  unfold processPlan
  rw [if_neg (by omega)]

/-- Witness for C6: source 800×300, target 800×480 — proportional height
300 < 480, single forced-resize rectangle from the original image. -/
theorem C6_short_layout_witness :
    newHeight 800 300 800 < 480 ∧
    processPlan 800 300 800 480 = [⟨none, ⟨0, 0, 800, 480⟩, true, true⟩] :=
  ⟨by decide,
   C6_short_layout 800 300 800 480 (by decide) (by decide) (by decide) (by decide) (by decide)⟩

/-- Claim C7 (amended): in the tall branch the number k of crop windows
satisfies 1 ≤ k ≤ 4; for 2 ≤ k the windows are labeled, in ascending
offset order, by the first k elements of ["top", "upper", "lower",
"bottom"], while a plan with a single crop window receives no label at
all (the file is written as `{base}.bmp`), not the label "top". -/
theorem C7_crop_labels (sW sH tW tH : ℕ) (hsW : 0 < sW) (hsH : 0 < sH)
    (htW : 0 < tW) (htH : 0 < tH) (htall : tH ≤ newHeight sW sH tW) :
    1 ≤ (cropPart (processPlan sW sH tW tH)).length ∧
    (cropPart (processPlan sW sH tW tH)).length ≤ 4 ∧
    ((cropPart (processPlan sW sH tW tH)).length = 1 →
      (cropPart (processPlan sW sH tW tH)).map PlanEntry.label = [none]) ∧
    (2 ≤ (cropPart (processPlan sW sH tW tH)).length →
      (cropPart (processPlan sW sH tW tH)).map PlanEntry.label =
        (labelStrings.take (cropPart (processPlan sW sH tW tH)).length).map some) := by
  rw [cropPart_processPlan_tall htall]
  rw [cropEntries_length, cropEntries_labels]
  refine ⟨cropOffsets_length_pos _, cropOffsets_length_le _, ?_, ?_⟩
  · intro h1
    rw [if_pos h1]
  · intro h2
    rw [if_neg (by omega)]
    exact labelFor_range_eq _ (cropOffsets_length_le _)

/-- Witness for C7: at 1600×1200 → 800×480 the four crop windows carry
the labels top/upper/lower/bottom; at 800×480 → 800×480 the single crop
window carries no label. -/
theorem C7_crop_labels_witness :
    (cropPart (processPlan 1600 1200 800 480)).map PlanEntry.label =
      [some "top", some "upper", some "lower", some "bottom"] ∧
    (cropPart (processPlan 800 480 800 480)).map PlanEntry.label = [none] := by
  constructor
  · have h := C7_crop_labels 1600 1200 800 480 (by decide) (by decide) (by decide)
      (by decide) (by decide)
    have h4 := h.2.2.2 (by decide)
    rw [h4]
    decide
  · have h := C7_crop_labels 800 480 800 480 (by decide) (by decide) (by decide)
      (by decide) (by decide)
    exact h.2.2.1 (by decide)

/-- Counterexample for C7 as stated: with source 800×480 and target
800×480 the plan has exactly one crop window and its label is `none`
(the crop is saved as `{base}.bmp` with no "_top" part), refuting the
claim that a single crop window is labeled "top". -/
theorem C7_single_crop_unlabeled :
    processPlan 800 480 800 480 =
      [⟨none, ⟨0, 0, 800, 480⟩, false, false⟩, resizedEntry 800 480] ∧
    (cropPart (processPlan 800 480 800 480)).length = 1 ∧
    (cropPart (processPlan 800 480 800 480)).map PlanEntry.label = [none] := by
  decide

/-- Claim C10: in the tall branch every crop window lies fully inside the
proportionally resized image — each offset y satisfies
y + targetH ≤ proportionalHeight (and trivially 0 ≤ y), with the window
spanning the full width at x = 0. -/
theorem C10_crops_within_resized (sW sH tW tH : ℕ) (hsW : 0 < sW) (hsH : 0 < sH)
    (htW : 0 < tW) (htH : 0 < tH) (htall : tH ≤ newHeight sW sH tW) :
    ∀ e ∈ cropPart (processPlan sW sH tW tH),
      e.rect.y + e.rect.h ≤ newHeight sW sH tW ∧ e.rect.x = 0 ∧ e.rect.w = tW := by
  intro e he
  rw [cropPart_processPlan_tall htall] at he
  unfold cropEntries at he
  obtain ⟨p, hp, rfl⟩ := List.mem_map.mp he
  have hmem : p.1 ∈ cropOffsets (newHeight sW sH tW - tH) := (List.of_mem_zip hp).1
  have hle := cropOffsets_le hmem
  refine ⟨?_, rfl, rfl⟩
  show p.1 + tH ≤ newHeight sW sH tW
  omega

/-- Witness for C10: the bottom crop window of the 1600×1200 → 800×480
plan, at offset 120, ends at 600 = the proportional height. -/
theorem C10_crops_within_resized_witness :
    (PlanEntry.mk (some "bottom") ⟨0, 120, 800, 480⟩ false false).rect.y +
        (PlanEntry.mk (some "bottom") ⟨0, 120, 800, 480⟩ false false).rect.h ≤
      newHeight 1600 1200 800 ∧
    (PlanEntry.mk (some "bottom") ⟨0, 120, 800, 480⟩ false false).rect.x = 0 ∧
    (PlanEntry.mk (some "bottom") ⟨0, 120, 800, 480⟩ false false).rect.w = 800 :=
  C10_crops_within_resized 1600 1200 800 480 (by decide) (by decide) (by decide)
    (by decide) (by decide) ⟨some "bottom", ⟨0, 120, 800, 480⟩, false, false⟩ (by decide)

/-- Claim C8: the stylized variant fails exactly when the parsed palette
has fewer than 8 entries, and any accepted palette is deterministically
truncated to its first 8 entries (in file order), so the quantizer always
receives exactly 8 colors. -/
theorem C8_exactly_eight (pal : List Color) :
    (stainedGlassPalette pal = none ↔ pal.length < 8) ∧
    (∀ q, stainedGlassPalette pal = some q → q = pal.take 8 ∧ q.length = 8) := by
  unfold stainedGlassPalette
  split_ifs with h
  · constructor
    · simp [h]
    · intro q hq
      cases hq
  · constructor
    · simp [h]
    · intro q hq
      cases hq
      refine ⟨rfl, ?_⟩
      rw [List.length_take]
      omega

/-- Witness for C8: a 9-entry palette is accepted and truncated to its
first 8 entries. -/
theorem C8_exactly_eight_witness :
    List.replicate 8 (⟨1, 2, 3⟩ : Color) = (List.replicate 9 (⟨1, 2, 3⟩ : Color)).take 8 ∧
    (List.replicate 8 (⟨1, 2, 3⟩ : Color)).length = 8 :=
  (C8_exactly_eight (List.replicate 9 ⟨1, 2, 3⟩)).2 (List.replicate 8 ⟨1, 2, 3⟩) (by decide)

theorem overlayRow_mem {pal : List Color} (hb : black ∈ pal) :
    ∀ (r : List Color) (er : List ℕ), (∀ c ∈ r, c ∈ pal) →
      ∀ c ∈ List.zipWith overlayPix r er, c ∈ pal := by
  intro r
  induction r with
  | nil =>
      intro er _ c hc
      simp at hc
  | cons a as ih =>
      intro er hr c hc
      cases er with
      | nil => simp at hc
      | cons e es =>
          rcases List.mem_cons.mp hc with h | h
          · subst h
            unfold overlayPix
            split_ifs
            · exact hr a (by simp)
            · exact hb
          · exact ih es (fun x hx => hr x (by simp [hx])) c h

/-- Claim C9 (amended): `overlay_edges` forces every masked pixel to the
literal color (0,0,0) — not to a palette-aware outline color — so the
fixed-palette invariant survives stylization exactly when black is itself
a palette entry: if every pixel of the quantized input lies in the
palette and black is in the palette, every pixel of the overlaid output
lies in the palette. -/
theorem C9_overlay_fixed_palette (pal : List Color) (img : List (List Color))
    (edges : List (List ℕ)) (hb : black ∈ pal)
    (himg : ∀ row ∈ img, ∀ c ∈ row, c ∈ pal) :
    ∀ row ∈ overlayEdges img edges, ∀ c ∈ row, c ∈ pal := by
  induction img generalizing edges with
  | nil =>
      intro row hrow
      simp [overlayEdges] at hrow
  | cons r rs ih =>
      intro row hrow
      cases edges with
      | nil => simp [overlayEdges] at hrow
      | cons er ers =>
          rcases List.mem_cons.mp hrow with h | h
          · subst h
            exact overlayRow_mem hb r er (himg r (by simp))
          · exact ih ers (fun x hx => himg x (by simp [hx])) row h

/-- Witness for C9: a palette containing black, a one-pixel quantized
image and a fully set mask — the overlaid pixel, black, is inside the
palette. -/
theorem C9_overlay_fixed_palette_witness :
    black ∈ ([black, ⟨200, 200, 200⟩] : List Color) :=
  C9_overlay_fixed_palette [black, ⟨200, 200, 200⟩] [[⟨200, 200, 200⟩]] [[1]]
    (by decide) (by decide) [black] (by decide) black (by decide)

/-- Counterexample for C9 as stated: against an 8-entry palette with no
black entry, a quantized one-pixel image under a set edge mask is
overlaid with literal (0,0,0), which is not a palette entry — the
stylized output violates the fixed-palette invariant the claim asserts. -/
theorem C9_overlay_fixed_palette_counterexample :
    (([[(⟨200, 200, 200⟩ : Color)]]).all
      (fun row => row.all (fun c => decide (c ∈ List.replicate 8 (⟨200, 200, 200⟩ : Color)))) = true) ∧
    overlayEdges [[⟨200, 200, 200⟩]] [[1]] = [[black]] ∧
    decide (black ∈ List.replicate 8 (⟨200, 200, 200⟩ : Color)) = false := by
  decide
